import Mathlib

/-
Verification of the fakesimpledb attribute-store engine (src/fakesimpledb.py)
against its natural-language specification.

The embedding models the observable behaviour of the module-level functions
`create_domain`, `list_domains`, `put_attributes`, `get_attributes`,
`delete_attributes` and `select_items`:

* The data directory (one sqlite file per domain) is a `State`, an association
  list from domain name to `Store`.  `sqlite3.connect` creates the file when it
  is absent, which `connect` models by appending an empty store.
* A `Store` is `Option Table`: `none` when the sqlite file holds no `datatable`
  table yet (freshly created file), `some t` once `put_attributes` has created
  it.  A `Table` is its column list (in declaration order) plus its rows (in
  insertion order, which is the order sqlite returns them in without ORDER BY).
* Python exceptions (both `AWSErrorException` and uncaught `sqlite3` /
  `AttributeError` failures) are modelled by `Except Err`; every operation
  returns the resulting `State` as well, because `sqlite3.connect` creates the
  backing file even when the operation later fails.
* Attribute names are modelled as opaque column names: the SQL text built by
  `put_attributes` is abstracted to the table it creates, so attribute names
  are assumed to behave as plain identifiers at the SQL level.
* The kwargs decoding of `Attribute.<n>.Name` / `Attribute.<n>.Value` performed
  at the top of `put_attributes` is the boundary-layer decoding; the embedding
  takes the resulting name-to-value mapping (an association list standing for
  the Python dict, so theorems that depend on values assume key nodup).
-/

namespace FakeSimpleDb

/-- Character class `[a-zA-Z0-9_.-]` of the domain-name check in `create_domain`. -/
def domainChar (c : Char) : Bool :=
  c.isAlpha || c.isDigit || c == '_' || c == '-' || c == '.'

/-- Word characters `[a-zA-Z_0-9]` of the domain token group in the
`select_items` regular expression. -/
def wordChar (c : Char) : Bool :=
  c.isAlpha || c.isDigit || c == '_'

/-- Python regular-expression class whitespace characters matched by the
pattern escape backslash-s. -/
def isSpaceChar (c : Char) : Bool :=
  c == ' ' || c == '\t' || c == '\n' || c == '\r' || c == '\x0b' || c == '\x0c'

/-- The three quote characters optionally surrounding the domain token in the
`select_items` regular expression (single quote, double quote, backtick). -/
def isQuoteChar (c : Char) : Bool :=
  c == '\'' || c == '"' || c == '\x60'

/-- Body check of the `create_domain` name pattern on a character list:
three to 255 characters, all in the domain character class. -/
def nameBodyOk (l : List Char) : Bool :=
  decide (3 ≤ l.length) && decide (l.length ≤ 255) && l.all domainChar

/-- Python semantics of `re.match` for the `create_domain` pattern anchored by
caret and dollar: the dollar of Python `re` also matches just before one
trailing newline, so a valid body followed by a single final newline matches. -/
def nameMatches (s : String) : Bool :=
  nameBodyOk s.data ||
    (match s.data.getLast? with
     | some '\n' => nameBodyOk s.data.dropLast
     | _ => false)

/-- The backing `datatable` of one domain: column names in declaration order
(first column is `sdbkey` for tables created by `put_attributes`) and rows in
insertion order. -/
structure Table where
  columns : List String
  rows : List (List String)
  deriving DecidableEq, Repr

/-- A domain's backing sqlite file: `none` while the file holds no `datatable`
table, `some t` once the table exists. -/
abbrev Store := Option Table

/-- The data directory: one backing-store file per domain, keyed by the domain
name exactly (`os.path.join(DATA_DIR, DomainName)` / `os.listdir`). -/
structure State where
  dir : List (String × Store)
  deriving DecidableEq, Repr

/-- The empty data directory. -/
def emptyState : State := ⟨[]⟩

/-- Failure outcomes of the engine.  `aws` carries the code and message of an
`AWSErrorException`; the other constructors stand for exceptions the source
does not catch: `sqlite3.OperationalError` for a missing `datatable`, a
missing `sdbkey` column, a duplicate column in CREATE TABLE, or an INSERT
whose value count differs from the column count, and `attributeError` for
calling `.groups()` on a failed regular-expression match in `select_items`.
`unmodeledQuery` marks query strings outside the SQL fragment this
development models (see `run_query`). -/
inductive Err where
  | aws (error_code : String) (error_message : String)
  | noSuchTable
  | noSuchColumn
  | duplicateColumn
  | valueCountMismatch
  | attributeError
  | unmodeledQuery
  deriving DecidableEq, Repr

instance {ε α : Type} [DecidableEq ε] [DecidableEq α] : DecidableEq (Except ε α) :=
  fun a b =>
    match a, b with
    | .error e1, .error e2 =>
      match decEq e1 e2 with
      | isTrue h => isTrue (by rw [h])
      | isFalse h => isFalse (fun hh => h (by cases hh; rfl))
    | .ok v1, .ok v2 =>
      match decEq v1 v2 with
      | isTrue h => isTrue (by rw [h])
      | isFalse h => isFalse (fun hh => h (by cases hh; rfl))
    | .error _, .ok _ => isFalse (fun hh => by cases hh)
    | .ok _, .error _ => isFalse (fun hh => by cases hh)

/-- The fixed AWS domain cap (`DOMAIN_CAP = 100`). -/
def DOMAIN_CAP : Nat := 100

/-- Model of `os.listdir(DATA_DIR)`: the names of the existing backing-store
files (order unspecified by the source; the model reports creation order). -/
def list_domains (st : State) : List String := st.dir.map Prod.fst

/-- Lookup of a domain's backing store in the data directory: `none` when no
file for that domain exists. -/
def storeOf (st : State) (name : String) : Option Store := st.dir.lookup name

/-- Model of `sqlite3.connect(os.path.join(DATA_DIR, DomainName))`: opens the
store, creating an empty backing file (with no `datatable`) when absent. -/
def connect (st : State) (name : String) : State × Store :=
  match st.dir.lookup name with
  | some s => (st, s)
  | none => (⟨st.dir ++ [(name, none)]⟩, none)

/-- Replace the store of an existing domain (the effect of a committed write
on that domain's sqlite file). -/
def setStore (st : State) (name : String) (s : Store) : State :=
  ⟨st.dir.map (fun p => if p.1 = name then (name, s) else p)⟩

/-- Model of `create_domain`: name check against the pattern (including the
Python trailing-newline quirk, see `nameMatches`), then the cap check on the
count of existing domains, then `sqlite3.connect` which creates the file. -/
def create_domain (st : State) (DomainName : String) : State × Except Err Unit :=
  if nameMatches DomainName = false then
    (st, .error (.aws "InvalidParameterValue"
      ("Value (" ++ DomainName ++ ") for parameter DomainName is invalid.")))
  else if DOMAIN_CAP ≤ (list_domains st).length then
    (st, .error (.aws "NumberDomainsExceeded" "Number of domains limit exceeded."))
  else
    ((connect st DomainName).1, .ok ())

/-- Lexicographic order on character lists, the order Python `list.sort()`
uses on the attribute-name strings (byte order and codepoint order agree on
ASCII names). -/
def charListLe : List Char → List Char → Bool
  | [], _ => true
  | _ :: _, [] => false
  | a :: as, b :: bs => if a = b then charListLe as bs else decide (a < b)

/-- Lexicographic order on strings via `charListLe`. -/
def strLe (a b : String) : Prop := charListLe a.data b.data = true

instance : DecidableRel strLe := fun a b => instDecidableEqBool (charListLe a.data b.data) true

/-- The sorted attribute-name list of one `put_attributes` call:
`sorted_keys = attributes.keys(); sorted_keys.sort()`.  The dict keys are
deduplicated (a Python dict cannot hold a key twice) and sorted
lexicographically. -/
def sortedKeys (attributes : List (String × String)) : List String :=
  List.insertionSort strLe (attributes.map Prod.fst).dedup

/-- Value of attribute `k` in the mapping (`attributes[key]`). -/
def attrValue (attributes : List (String × String)) (k : String) : String :=
  (attributes.lookup k).getD ""

/-- Model of `put_attributes` after boundary decoding of the kwargs into a
name-to-value mapping.  Mirrors the source: return immediately when the
mapping is empty (before any `connect`); otherwise connect (creating the file
if absent), run `CREATE TABLE IF NOT EXISTS datatable (sdbkey, <sorted keys>)`
— which does nothing when the table already exists, whatever its columns —
then `INSERT INTO datatable VALUES (ItemName, <values in sorted key order>)`,
which sqlite accepts only when the value count equals the column count and
which assigns values to columns purely by position. -/
def put_attributes (st : State) (DomainName ItemName : String)
    (attributes : List (String × String)) : State × Except Err Unit :=
  if attributes.length = 0 then (st, .ok ())
  else
    let p := connect st DomainName
    let ks := sortedKeys attributes
    let row := ItemName :: ks.map (attrValue attributes)
    match p.2 with
    | none =>
      if "sdbkey" ∈ ks then (p.1, .error .duplicateColumn)
      else (setStore p.1 DomainName (some ⟨"sdbkey" :: ks, [row]⟩), .ok ())
    | some t =>
      if row.length = t.columns.length then
        (setStore p.1 DomainName (some ⟨t.columns, t.rows ++ [row]⟩), .ok ())
      else (p.1, .error .valueCountMismatch)

/-- The attribute mapping `get_attributes` reconstructs from one row: pairs of
column name and row value in column order, skipping the internal `sdbkey`
column. -/
def rowAttrs (columns row : List String) : List (String × String) :=
  (columns.zip row).filter (fun p => p.1 != "sdbkey")

/-- Model of `get_attributes`: connect (creating the file if absent), run
`SELECT * FROM datatable WHERE sdbkey=?` — an `OperationalError` when the
table (or the `sdbkey` column) does not exist — take the first returned row
(`fetchall()[0]`, rows in insertion order), returning the empty mapping when
there is none (the caught `IndexError`), and rebuild the mapping from the
PRAGMA column list, skipping `sdbkey`. -/
def get_attributes (st : State) (DomainName ItemName : String) :
    State × Except Err (List (String × String)) :=
  let p := connect st DomainName
  match p.2 with
  | none => (p.1, .error .noSuchTable)
  | some t =>
    match t.columns.findIdx? (· == "sdbkey") with
    | none => (p.1, .error .noSuchColumn)
    | some i =>
      match t.rows.find? (fun r => r.get? i == some ItemName) with
      | none => (p.1, .ok [])
      | some row => (p.1, .ok (rowAttrs t.columns row))

/-- Model of `delete_attributes`: connect (creating the file if absent), then
`DELETE FROM datatable WHERE sdbkey=?` — an `OperationalError` when the table
(or the `sdbkey` column) does not exist — removing every row whose key
matches. -/
def delete_attributes (st : State) (DomainName ItemName : String) :
    State × Except Err Unit :=
  let p := connect st DomainName
  match p.2 with
  | none => (p.1, .error .noSuchTable)
  | some t =>
    match t.columns.findIdx? (· == "sdbkey") with
    | none => (p.1, .error .noSuchColumn)
    | some i =>
      (setStore p.1 DomainName
        (some ⟨t.columns, t.rows.filter (fun r => !(r.get? i == some ItemName))⟩), .ok ())

/-- Whether a character list begins with `from` or `FROM` (the alternation
group of the `select_items` pattern). -/
def startsFrom (l : List Char) : Bool :=
  decide (l.take 4 = ['f', 'r', 'o', 'm']) || decide (l.take 4 = ['F', 'R', 'O', 'M'])

/-- Whether `from` or `FROM` occurs anywhere in a character list. -/
def hasFrom : List Char → Bool
  | [] => false
  | c :: r => startsFrom (c :: r) || hasFrom r

/-- Match of the token part of the `select_items` pattern after the whitespace
following `from`: an optional quote, a maximal nonempty run of word
characters, an optional quote, then a mandatory whitespace character.  The
backtracking of the Python engine is deterministic here because quote
characters and whitespace are not word characters. -/
def tokenCore (m : List Char) : Option (List Char) :=
  if m.takeWhile wordChar = [] then none
  else
    match m.dropWhile wordChar with
    | [] => none
    | c :: r =>
      if isQuoteChar c then
        match r with
        | c2 :: _ => if isSpaceChar c2 then some (m.takeWhile wordChar) else none
        | [] => none
      else if isSpaceChar c then some (m.takeWhile wordChar) else none

/-- Token match including the optional opening quote. -/
def tokenAfter (l : List Char) : Option (List Char) :=
  match l with
  | [] => none
  | c :: r => if isQuoteChar c then tokenCore r else tokenCore (c :: r)

/-- Attempted match of `(from|FROM)` whitespace quote? token quote? whitespace
at the head of a character list, returning the token group on success. -/
def candidateAt (l : List Char) : Option (List Char) :=
  if startsFrom l then
    match l.drop 4 with
    | c :: r => if isSpaceChar c then tokenAfter r else none
    | [] => none
  else none

/-- Greedy scan of the first `.*` of the `select_items` pattern: the engine
prefers the rightmost position at which the rest of the pattern matches, and
the dot cannot cross a newline, so no candidate beyond a newline is
reachable. -/
def scanRightmost : List Char → Option (List Char)
  | [] => none
  | c :: r =>
    if c = '\n' then none
    else
      match scanRightmost r with
      | some t => some t
      | none => candidateAt (c :: r)

/-- Model of the domain-name extraction of `select_items`:
`re.match` of the pattern `(select|SELECT)` dot-star `(from|FROM)` whitespace
quote? token quote? whitespace dot-star against the expression, returning the
token group, or `none` when the pattern does not match. -/
def extract_domain (s : String) : Option String :=
  match s.data with
  | 's' :: 'e' :: 'l' :: 'e' :: 'c' :: 't' :: r => (scanRightmost r).map List.asString
  | 'S' :: 'E' :: 'L' :: 'E' :: 'C' :: 'T' :: r => (scanRightmost r).map List.asString
  | _ => none

/-- Fuel-indexed textual replacement; the fuel is the input length, which the
recursion never exhausts because each step consumes at least one character. -/
def replaceListAux (pat rep : List Char) : Nat → List Char → List Char
  | 0, l => l
  | _ + 1, [] => []
  | fuel + 1, c :: r =>
    if pat ≠ [] ∧ pat.isPrefixOf (c :: r) then
      rep ++ replaceListAux pat rep fuel ((c :: r).drop pat.length)
    else
      c :: replaceListAux pat rep fuel r

/-- Model of Python `str.replace(old, new)` for a nonempty pattern:
left-to-right replacement of every non-overlapping occurrence. -/
def pyReplace (s old new : String) : String :=
  ⟨replaceListAux old.data new.data s.data.length s.data⟩

/-- Trailing whitespace removal (sqlite accepts trailing whitespace after a
statement). -/
def rstrip (s : String) : String :=
  ⟨(s.data.reverse.dropWhile isSpaceChar).reverse⟩

/-- Model of sqlite executing the rewritten query of `select_items` against a
domain's store.  Executing any query fails with `no such table` when the
store holds no `datatable`.  Of the unbounded SQL dialect the model only
interprets the star-select shape this development exercises; every other
query string is mapped to the `unmodeledQuery` outcome standing for
whatever the real engine would do. -/
def run_query (store : Store) (q : String) : Except Err (List (List String)) :=
  match store with
  | none => .error .noSuchTable
  | some t =>
    if rstrip q = "SELECT * FROM datatable" ∨ rstrip q = "select * from datatable" then
      .ok t.rows
    else .error .unmodeledQuery

/-- Row reshaping of `select_items`: every returned row is turned into the
mapping from column name (PRAGMA order, including `sdbkey`) to row value. -/
def exec_on_store (store : Store) (q : String) :
    Except Err (List (List (String × String))) :=
  match run_query store q with
  | .error e => .error e
  | .ok rows =>
    let cols := match store with | some t => t.columns | none => []
    .ok (rows.map (fun r => cols.zip r))

/-- Model of `select_items`: extract the domain token from the expression (an
uncaught `AttributeError` from `None.groups()` when the pattern does not
match), connect to that domain's store (creating the file if absent),
textually replace every occurrence of the token by `datatable`, execute the
rewritten query and reshape the rows. -/
def select_items (st : State) (SelectExpression : String) :
    State × Except Err (List (List (String × String))) :=
  match extract_domain SelectExpression with
  | none => (st, .error .attributeError)
  | some dom =>
    let p := connect st dom
    (p.1, exec_on_store p.2 (pyReplace SelectExpression dom "datatable"))

/-- Directory holding exactly `DOMAIN_CAP` domains `dom0 .. dom99`, all with
freshly created (table-less) backing stores. -/
def capState : State := ⟨(List.range DOMAIN_CAP).map (fun i => ("dom" ++ toString i, none))⟩

/-- Directory holding one domain `D` whose table has a `color` column and one
row for item `item1`. -/
def exState : State := ⟨[("D", some ⟨["sdbkey", "color"], [["item1", "red"]]⟩)]⟩

theorem lookup_cons_eq {β : Type} (a : String) (b : β) (t : List (String × β)) :
    ((a, b) :: t).lookup a = some b := by
  simp [List.lookup]

theorem lookup_cons_ne {β : Type} {k a : String} (b : β) (t : List (String × β))
    (h : ¬ k = a) : ((k, b) :: t).lookup a = t.lookup a := by
  have hb : (a == k) = false := beq_eq_false_iff_ne.mpr fun hh => h hh.symm
  simp [List.lookup, hb]

theorem lookup_eq_none {β : Type} {l : List (String × β)} {k : String} :
    l.lookup k = none ↔ k ∉ l.map Prod.fst := by
  induction l with
  | nil => simp
  | cons p t ih =>
    obtain ⟨a, b⟩ := p
    by_cases h : a = k
    · subst h
      simp [lookup_cons_eq]
    · rw [lookup_cons_ne b t h]
      simp [ih, Ne.symm h]

theorem lookup_append_left_none {β : Type} {l1 l2 : List (String × β)} {k : String}
    (h : l1.lookup k = none) : (l1 ++ l2).lookup k = l2.lookup k := by
  induction l1 with
  | nil => simp
  | cons p t ih =>
    obtain ⟨a, b⟩ := p
    by_cases hk : a = k
    · subst hk
      rw [lookup_cons_eq] at h
      cases h
    · rw [lookup_cons_ne b t hk] at h
      rw [List.cons_append, lookup_cons_ne b (t ++ l2) hk]
      exact ih h

theorem connect_mem {st : State} {name : String} {s : Store}
    (h : storeOf st name = some s) : connect st name = (st, s) := by
  unfold storeOf at h
  simp [connect, h]

theorem connect_fresh {st : State} {name : String}
    (h : storeOf st name = none) : connect st name = (⟨st.dir ++ [(name, none)]⟩, none) := by
  unfold storeOf at h
  simp [connect, h]

theorem storeOf_connect_fresh {st : State} {name : String}
    (h : storeOf st name = none) : storeOf (connect st name).1 name = some none := by
  rw [connect_fresh h]
  unfold storeOf at h ⊢
  rw [lookup_append_left_none h]
  simp [List.lookup]

theorem list_domains_connect_fresh {st : State} {name : String}
    (h : storeOf st name = none) :
    list_domains (connect st name).1 = list_domains st ++ [name] := by
  rw [connect_fresh h]
  simp [list_domains]

theorem lookup_map_set {β : Type} (l : List (String × β)) (k : String) (v : β) :
    ∀ v0, l.lookup k = some v0 →
      (l.map (fun p => if p.1 = k then (k, v) else p)).lookup k = some v := by
  induction l with
  | nil => intro v0 h; cases h
  | cons p t ih =>
    intro v0 h
    obtain ⟨a, b⟩ := p
    rw [List.map_cons]
    by_cases hk : a = k
    · subst hk
      have hf : (if (a, b).1 = a then (a, v) else (a, b)) = (a, v) := by simp
      rw [hf, lookup_cons_eq]
    · have hf : (if (a, b).1 = k then (k, v) else (a, b)) = (a, b) := by simp [hk]
      rw [hf, lookup_cons_ne b _ hk]
      rw [lookup_cons_ne b t hk] at h
      exact ih _ h

theorem map_set_keys {β : Type} (l : List (String × β)) (k : String) (v : β) :
    (l.map (fun p => if p.1 = k then (k, v) else p)).map Prod.fst = l.map Prod.fst := by
  induction l with
  | nil => rfl
  | cons p t ih =>
    obtain ⟨a, b⟩ := p
    by_cases hk : a = k
    · subst hk
      simp [ih]
    · simp [hk, ih]

theorem storeOf_setStore_self {st : State} {name : String} {s s0 : Store}
    (h : storeOf st name = some s0) : storeOf (setStore st name s) name = some s :=
  lookup_map_set st.dir name s s0 h

theorem list_domains_setStore (st : State) (name : String) (s : Store) :
    list_domains (setStore st name s) = list_domains st :=
  map_set_keys st.dir name s

theorem find?_append_left_none {α : Type} {p : α → Bool} {l1 l2 : List α}
    (h : l1.find? p = none) : (l1 ++ l2).find? p = l2.find? p := by
  induction l1 with
  | nil => simp
  | cons a t ih =>
    cases hp : p a with
    | true =>
      rw [List.find?_cons_of_pos _ hp] at h
      cases h
    | false =>
      have hp' : ¬ p a = true := by simp [hp]
      rw [List.find?_cons_of_neg _ hp'] at h
      rw [List.cons_append, List.find?_cons_of_neg _ hp']
      exact ih h

theorem lookup_of_mem_nodup {l : List (String × String)} {n v : String}
    (hnd : (l.map Prod.fst).Nodup) (h : (n, v) ∈ l) : l.lookup n = some v := by
  induction l with
  | nil => cases h
  | cons p t ih =>
    obtain ⟨a, b⟩ := p
    rw [List.map_cons, List.nodup_cons] at hnd
    rcases List.mem_cons.mp h with h1 | h1
    · cases h1
      exact lookup_cons_eq n v t
    · have hna : ¬ a = n := by
        intro hh
        subst hh
        have hm : a ∈ List.map Prod.fst t := by
          simpa using List.mem_map_of_mem Prod.fst h1
        exact hnd.1 hm
      rw [lookup_cons_ne b t hna]
      exact ih hnd.2 h1

theorem lookup_zip_map {ks : List String} {f : String → String} {n : String}
    (hnd : ks.Nodup) (h : n ∈ ks) : (ks.zip (ks.map f)).lookup n = some (f n) := by
  induction ks with
  | nil => cases h
  | cons k t ih =>
    rw [List.nodup_cons] at hnd
    rw [List.map_cons, List.zip_cons_cons]
    rcases List.mem_cons.mp h with h1 | h1
    · subst h1
      exact lookup_cons_eq n (f n) _
    · have hnk : ¬ k = n := fun hh => hnd.1 (hh ▸ h1)
      rw [lookup_cons_ne (f k) _ hnk]
      exact ih hnd.2 h1

theorem mem_sortedKeys {attrs : List (String × String)} {n : String} :
    n ∈ sortedKeys attrs ↔ n ∈ attrs.map Prod.fst := by
  unfold sortedKeys
  rw [(List.perm_insertionSort strLe _).mem_iff]
  exact List.mem_dedup

theorem nodup_sortedKeys (attrs : List (String × String)) : (sortedKeys attrs).Nodup :=
  ((List.perm_insertionSort strLe _).nodup_iff).mpr (List.nodup_dedup _)

theorem sdbkey_not_mem_rowAttrs (cols row : List String) :
    "sdbkey" ∉ (rowAttrs cols row).map Prod.fst := by
  intro h
  simp [rowAttrs, List.mem_filter] at h

theorem put_attributes_nil (st : State) (D item : String) :
    put_attributes st D item [] = (st, Except.ok ()) := rfl

theorem put_attributes_create (st : State) (D item : String)
    (attrs : List (String × String)) (hne : attrs ≠ [])
    (hconn : (connect st D).2 = none)
    (hsk : "sdbkey" ∉ sortedKeys attrs) :
    put_attributes st D item attrs =
      (setStore (connect st D).1 D
        (some ⟨"sdbkey" :: sortedKeys attrs,
          [item :: (sortedKeys attrs).map (attrValue attrs)]⟩), Except.ok ()) := by
  have hlen : ¬ (attrs.length = 0) := by simpa [List.length_eq_zero] using hne
  simp only [put_attributes, if_neg hlen, hconn, if_neg hsk]

theorem put_attributes_dupcol (st : State) (D item : String)
    (attrs : List (String × String)) (hne : attrs ≠ [])
    (hconn : (connect st D).2 = none)
    (hsk : "sdbkey" ∈ sortedKeys attrs) :
    put_attributes st D item attrs = ((connect st D).1, Except.error Err.duplicateColumn) := by
  have hlen : ¬ (attrs.length = 0) := by simpa [List.length_eq_zero] using hne
  simp only [put_attributes, if_neg hlen, hconn, if_pos hsk]

theorem put_attributes_append (st : State) (D item : String)
    (attrs : List (String × String)) (t : Table) (hne : attrs ≠ [])
    (hconn : (connect st D).2 = some t)
    (hcols : t.columns = "sdbkey" :: sortedKeys attrs) :
    put_attributes st D item attrs =
      (setStore (connect st D).1 D
        (some ⟨t.columns, t.rows ++ [item :: (sortedKeys attrs).map (attrValue attrs)]⟩),
       Except.ok ()) := by
  have hlen : ¬ (attrs.length = 0) := by simpa [List.length_eq_zero] using hne
  have hrow : (item :: (sortedKeys attrs).map (attrValue attrs)).length = t.columns.length := by
    simp [hcols]
  simp only [put_attributes, if_neg hlen, hconn, if_pos hrow]

theorem get_attributes_no_table {st : State} {D item : String}
    (hconn : (connect st D).2 = none) :
    get_attributes st D item = ((connect st D).1, Except.error Err.noSuchTable) := by
  simp only [get_attributes, hconn]

theorem delete_attributes_no_table {st : State} {D item : String}
    (hconn : (connect st D).2 = none) :
    delete_attributes st D item = ((connect st D).1, Except.error Err.noSuchTable) := by
  simp only [delete_attributes, hconn]

theorem get_attributes_table (st : State) (D item : String) (t : Table) (i : Nat)
    (hconn : (connect st D).2 = some t)
    (hidx : t.columns.findIdx? (· == "sdbkey") = some i) :
    get_attributes st D item =
      ((connect st D).1,
        match t.rows.find? (fun r => r.get? i == some item) with
        | none => Except.ok []
        | some row => Except.ok (rowAttrs t.columns row)) := by
  simp only [get_attributes, hconn, hidx]
  cases List.find? (fun r => r.get? i == some item) t.rows <;> rfl

theorem get_attributes_no_column {st : State} {D item : String} {t : Table}
    (hconn : (connect st D).2 = some t)
    (hidx : t.columns.findIdx? (· == "sdbkey") = none) :
    get_attributes st D item = ((connect st D).1, Except.error Err.noSuchColumn) := by
  simp only [get_attributes, hconn, hidx]

theorem run_query_ok {t : Table} {q : String} {rows : List (List String)}
    (h : run_query (some t) q = Except.ok rows) : rows = t.rows := by
  have h' : (if rstrip q = "SELECT * FROM datatable" ∨ rstrip q = "select * from datatable" then
      Except.ok t.rows
    else (Except.error Err.unmodeledQuery : Except Err (List (List String)))) =
      Except.ok rows := h
  by_cases hc : rstrip q = "SELECT * FROM datatable" ∨ rstrip q = "select * from datatable"
  · rw [if_pos hc] at h'
    cases h'
    rfl
  · rw [if_neg hc] at h'
    cases h'

theorem exec_on_store_ok {t : Table} {q : String} {ms : List (List (String × String))}
    (h : exec_on_store (some t) q = Except.ok ms) :
    ms = t.rows.map (fun r => t.columns.zip r) := by
  unfold exec_on_store at h
  cases hrq : run_query (some t) q with
  | error e =>
    rw [hrq] at h
    cases h
  | ok rows =>
    rw [hrq] at h
    have hr := run_query_ok hrq
    subst hr
    cases h
    rfl

theorem quote_not_word {c : Char} (h : isQuoteChar c = true) : wordChar c = false := by
  unfold isQuoteChar at h
  rcases Bool.or_eq_true_iff.mp h with h1 | h1
  · rcases Bool.or_eq_true_iff.mp h1 with h2 | h2
    · rw [eq_of_beq h2]
      decide
    · rw [eq_of_beq h2]
      decide
  · rw [eq_of_beq h1]
    decide

theorem word_not_quote {c : Char} (h : wordChar c = true) : isQuoteChar c = false := by
  cases hq : isQuoteChar c with
  | false => rfl
  | true =>
    rw [quote_not_word hq] at h
    cases h

theorem startsFrom_nil : startsFrom [] = false := rfl

theorem startsFrom_cons_ne {c : Char} (l : List Char) (h1 : ¬ c = 'f') (h2 : ¬ c = 'F') :
    startsFrom (c :: l) = false := by
  unfold startsFrom
  rw [Bool.or_eq_false_iff]
  constructor
  · rw [decide_eq_false_iff_not]
    intro h
    injection h with ha _
    exact h1 ha
  · rw [decide_eq_false_iff_not]
    intro h
    injection h with ha _
    exact h2 ha

theorem hasFrom_cons (c : Char) (l : List Char) :
    hasFrom (c :: l) = (startsFrom (c :: l) || hasFrom l) := rfl

theorem hasFrom_drop_false {w : List Char} (h : hasFrom w = false) :
    ∀ i, startsFrom (List.drop i w) = false := by
  induction w with
  | nil =>
    intro i
    rw [List.drop_nil]
    rfl
  | cons c r ih =>
    intro i
    rw [hasFrom_cons, Bool.or_eq_false_iff] at h
    cases i with
    | zero => exact h.1
    | succ n =>
      rw [List.drop_succ_cons]
      exact ih h.2 n

theorem startsFrom_append_of_le {w z : List Char} (h4 : 4 ≤ w.length) :
    startsFrom (w ++ z) = startsFrom w := by
  unfold startsFrom
  rw [List.take_append_of_le_length h4]

theorem startsFrom_short_boundary {w : List Char} {zc : Char} {zr : List Char}
    (hlen : w.length < 4) (hw : ∀ c ∈ w, wordChar c = true) (hzc : wordChar zc = false) :
    startsFrom (w ++ zc :: zr) = false := by
  match w, hlen with
  | [], _ =>
    refine startsFrom_cons_ne zr ?_ ?_ <;> intro hh <;> rw [hh] at hzc <;>
      exact absurd hzc (by decide)
  | [a], _ =>
    unfold startsFrom
    rw [Bool.or_eq_false_iff]
    constructor <;> rw [decide_eq_false_iff_not] <;> intro h <;>
      · injection h with h1 h2
        injection h2 with h3 _
        rw [h3] at hzc
        exact absurd hzc (by decide)
  | [a, b], _ =>
    unfold startsFrom
    rw [Bool.or_eq_false_iff]
    constructor <;> rw [decide_eq_false_iff_not] <;> intro h <;>
      · injection h with h1 h2
        injection h2 with h3 h4
        injection h4 with h5 _
        rw [h5] at hzc
        exact absurd hzc (by decide)
  | [a, b, c3], _ =>
    unfold startsFrom
    rw [Bool.or_eq_false_iff]
    constructor <;> rw [decide_eq_false_iff_not] <;> intro h <;>
      · injection h with h1 h2
        injection h2 with h3 h4
        injection h4 with h5 h6
        injection h6 with h7 _
        rw [h7] at hzc
        exact absurd hzc (by decide)

theorem startsFrom_wordzone_false {w : List Char} {zc : Char} {zr : List Char}
    (hw : ∀ c ∈ w, wordChar c = true) (hsub : hasFrom w = false) (hzc : wordChar zc = false) :
    ∀ i, startsFrom (w.drop i ++ zc :: zr) = false := by
  intro i
  by_cases h4 : 4 ≤ (w.drop i).length
  · rw [startsFrom_append_of_le h4]
    exact hasFrom_drop_false hsub i
  · exact startsFrom_short_boundary (Nat.not_le.mp h4)
      (fun c hc => hw c (List.mem_of_mem_drop hc)) hzc

theorem hasFrom_append_false : ∀ (l1 : List Char) {l2 : List Char},
    hasFrom l2 = false → (∀ i, startsFrom (l1.drop i ++ l2) = false) →
    hasFrom (l1 ++ l2) = false := by
  intro l1
  induction l1 with
  | nil =>
    intro l2 h2 _
    simpa using h2
  | cons c r ih =>
    intro l2 h2 h1
    rw [List.cons_append, hasFrom_cons, Bool.or_eq_false_iff]
    constructor
    · have h0 := h1 0
      simpa using h0
    · exact ih h2 (fun i => by
        have hi := h1 (i + 1)
        rwa [List.drop_succ_cons] at hi)

theorem scanRightmost_eq_none_of_hasFrom_false : ∀ {l : List Char},
    hasFrom l = false → scanRightmost l = none := by
  intro l
  induction l with
  | nil => intro _; rfl
  | cons c r ih =>
    intro h
    rw [hasFrom_cons, Bool.or_eq_false_iff] at h
    simp only [scanRightmost]
    by_cases hc : c = '\n'
    · rw [if_pos hc]
    · rw [if_neg hc, ih h.2]
      show candidateAt (c :: r) = none
      unfold candidateAt
      rw [h.1]
      simp

theorem scanRightmost_append_of_some : ∀ (xs : List Char) {ys t : List Char},
    '\n' ∉ xs → scanRightmost ys = some t → scanRightmost (xs ++ ys) = some t := by
  intro xs
  induction xs with
  | nil =>
    intro ys t _ h
    simpa using h
  | cons c r ih =>
    intro ys t hnl h
    have hc : ¬ c = '\n' := by
      intro hh
      exact hnl (List.mem_cons.mpr (Or.inl hh.symm))
    have hr : '\n' ∉ r := fun hm => hnl (List.mem_cons_of_mem c hm)
    rw [List.cons_append]
    simp only [scanRightmost]
    rw [if_neg hc, ih hr h]

theorem takeWhile_word_exact : ∀ (w z : List Char),
    (∀ c ∈ w, wordChar c = true) → (∀ c, z.head? = some c → wordChar c = false) →
    (w ++ z).takeWhile wordChar = w ∧ (w ++ z).dropWhile wordChar = z := by
  intro w
  induction w with
  | nil =>
    intro z _ hz
    cases z with
    | nil => exact ⟨rfl, rfl⟩
    | cons zc zr =>
      have hzc : wordChar zc = false := hz zc rfl
      constructor
      · rw [List.nil_append, List.takeWhile_cons, hzc]
        simp
      · rw [List.nil_append, List.dropWhile_cons, hzc]
        simp
  | cons c r ih =>
    intro z hw hz
    have hc : wordChar c = true := hw c (List.mem_cons_self c r)
    have hr := ih z (fun x hx => hw x (List.mem_cons_of_mem c hx)) hz
    constructor
    · rw [List.cons_append, List.takeWhile_cons, hc]
      simp [hr.1]
    · rw [List.cons_append, List.dropWhile_cons, hc]
      simp [hr.2]

theorem tokenCore_unquoted {w restd : List Char} (hne : w ≠ [])
    (hw : ∀ c ∈ w, wordChar c = true) :
    tokenCore (w ++ ' ' :: restd) = some w := by
  have h := takeWhile_word_exact w (' ' :: restd) hw
    (fun c hc => by cases hc; decide)
  unfold tokenCore
  rw [h.1, h.2, if_neg hne]
  rfl

theorem tokenCore_quoted {w restd : List Char} {qc : Char} (hne : w ≠ [])
    (hw : ∀ c ∈ w, wordChar c = true) (hqc : isQuoteChar qc = true) :
    tokenCore (w ++ qc :: ' ' :: restd) = some w := by
  have h := takeWhile_word_exact w (qc :: ' ' :: restd) hw
    (fun c hc => by cases hc; exact quote_not_word hqc)
  unfold tokenCore
  rw [h.1, h.2, if_neg hne]
  show (if isQuoteChar qc = true then
      (if isSpaceChar ' ' = true then some w else none : Option (List Char))
    else if isSpaceChar qc = true then some w else none) = some w
  rw [if_pos hqc]
  rfl

theorem tokenAfter_zone {tokd restd : List Char} {q : Option Char}
    (hq : ∀ c, q = some c → isQuoteChar c = true)
    (hne : tokd ≠ []) (hw : ∀ c ∈ tokd, wordChar c = true) :
    tokenAfter (q.toList ++ (tokd ++ (q.toList ++ (' ' :: restd)))) = some tokd := by
  cases q with
  | none =>
    show tokenAfter (tokd ++ (' ' :: restd)) = some tokd
    obtain ⟨c0, t', rfl⟩ := List.exists_cons_of_ne_nil hne
    have hc0 : wordChar c0 = true := hw c0 (List.mem_cons_self c0 t')
    rw [List.cons_append]
    show (if isQuoteChar c0 = true then tokenCore (t' ++ ' ' :: restd)
      else tokenCore (c0 :: (t' ++ ' ' :: restd))) = some (c0 :: t')
    rw [word_not_quote hc0, if_neg (by decide : ¬ (false = true)), ← List.cons_append]
    exact tokenCore_unquoted hne hw
  | some qc =>
    have hqc := hq qc rfl
    show tokenAfter (qc :: (tokd ++ (qc :: ' ' :: restd))) = some tokd
    show (if isQuoteChar qc = true then tokenCore (tokd ++ (qc :: ' ' :: restd))
      else tokenCore (qc :: (tokd ++ (qc :: ' ' :: restd)))) = some tokd
    rw [if_pos hqc]
    exact tokenCore_quoted hne hw hqc

theorem candidateAt_FROM {tokd restd : List Char} {q : Option Char}
    (hq : ∀ c, q = some c → isQuoteChar c = true)
    (hne : tokd ≠ []) (hw : ∀ c ∈ tokd, wordChar c = true) :
    candidateAt ('F' :: 'R' :: 'O' :: 'M' :: ' ' ::
      (q.toList ++ (tokd ++ (q.toList ++ (' ' :: restd))))) = some tokd := by
  unfold candidateAt
  rw [if_pos (by rfl :
    startsFrom ('F' :: 'R' :: 'O' :: 'M' :: ' ' ::
      (q.toList ++ (tokd ++ (q.toList ++ (' ' :: restd))))) = true)]
  show (if isSpaceChar ' ' then
      tokenAfter (q.toList ++ (tokd ++ (q.toList ++ (' ' :: restd)))) else none) = some tokd
  rw [if_pos (by decide : isSpaceChar ' ' = true)]
  exact tokenAfter_zone hq hne hw

theorem hasFrom_zone_false {tokd restd : List Char} {q : Option Char}
    (hq : ∀ c, q = some c → isQuoteChar c = true)
    (hw : ∀ c ∈ tokd, wordChar c = true)
    (htf : hasFrom tokd = false) (hrf : hasFrom restd = false) :
    hasFrom (q.toList ++ (tokd ++ (q.toList ++ (' ' :: restd)))) = false := by
  have h0 : hasFrom (' ' :: restd) = false := by
    rw [hasFrom_cons, Bool.or_eq_false_iff]
    exact ⟨startsFrom_cons_ne _ (by decide) (by decide), hrf⟩
  have hquote : ∀ (z : List Char), hasFrom z = false → hasFrom (q.toList ++ z) = false := by
    intro z hz
    cases q with
    | none => simpa using hz
    | some qc =>
      have hqc := hq qc rfl
      show hasFrom (qc :: z) = false
      rw [hasFrom_cons, Bool.or_eq_false_iff]
      refine ⟨startsFrom_cons_ne _ ?_ ?_, hz⟩ <;> intro hh <;> rw [hh] at hqc <;>
        exact absurd hqc (by decide)
  have h1 : hasFrom (q.toList ++ (' ' :: restd)) = false := hquote _ h0
  have h2 : hasFrom (tokd ++ (q.toList ++ (' ' :: restd))) = false := by
    cases q with
    | none =>
      exact hasFrom_append_false tokd h1 (startsFrom_wordzone_false hw htf (by decide))
    | some qc =>
      exact hasFrom_append_false tokd h1
        (startsFrom_wordzone_false hw htf (quote_not_word (hq qc rfl)))
  exact hquote _ h2

theorem scanRightmost_FROM {tokd restd : List Char} {q : Option Char}
    (hq : ∀ c, q = some c → isQuoteChar c = true)
    (hne : tokd ≠ []) (hw : ∀ c ∈ tokd, wordChar c = true)
    (htf : hasFrom tokd = false) (hrf : hasFrom restd = false) :
    scanRightmost ('F' :: 'R' :: 'O' :: 'M' :: ' ' ::
      (q.toList ++ (tokd ++ (q.toList ++ (' ' :: restd))))) = some tokd := by
  have hz := hasFrom_zone_false hq hw htf hrf
  have hnone : scanRightmost ('R' :: 'O' :: 'M' :: ' ' ::
      (q.toList ++ (tokd ++ (q.toList ++ (' ' :: restd))))) = none := by
    apply scanRightmost_eq_none_of_hasFrom_false
    rw [hasFrom_cons, Bool.or_eq_false_iff]
    refine ⟨startsFrom_cons_ne _ (by decide) (by decide), ?_⟩
    rw [hasFrom_cons, Bool.or_eq_false_iff]
    refine ⟨startsFrom_cons_ne _ (by decide) (by decide), ?_⟩
    rw [hasFrom_cons, Bool.or_eq_false_iff]
    refine ⟨startsFrom_cons_ne _ (by decide) (by decide), ?_⟩
    rw [hasFrom_cons, Bool.or_eq_false_iff]
    exact ⟨startsFrom_cons_ne _ (by decide) (by decide), hz⟩
  show (match scanRightmost ('R' :: 'O' :: 'M' :: ' ' ::
      (q.toList ++ (tokd ++ (q.toList ++ (' ' :: restd))))) with
    | some t => some t
    | none => candidateAt ('F' :: 'R' :: 'O' :: 'M' :: ' ' ::
        (q.toList ++ (tokd ++ (q.toList ++ (' ' :: restd)))))) = some tokd
  rw [hnone]
  exact candidateAt_FROM hq hne hw

theorem data_append (a b : String) : (a ++ b).data = a.data ++ b.data := by
  cases a
  cases b
  rfl

theorem extract_domain_shape (cols tok rest : String) (q : Option Char)
    (hq : ∀ c, q = some c → isQuoteChar c = true)
    (hne : tok.data ≠ [])
    (hw : ∀ c ∈ tok.data, wordChar c = true)
    (htf : hasFrom tok.data = false) (hrf : hasFrom rest.data = false)
    (hnl : '\n' ∉ cols.data) :
    extract_domain ("SELECT " ++ cols ++ " FROM " ++ (⟨q.toList⟩ : String) ++ tok ++
      (⟨q.toList⟩ : String) ++ " " ++ rest) = some tok := by
  have hnl' : '\n' ∉ (' ' :: cols.data ++ [' ']) := by
    intro hm
    rcases List.mem_cons.mp hm with h1 | h1
    · exact absurd h1 (by decide)
    · rcases List.mem_append.mp h1 with h2 | h2
      · exact hnl h2
      · exact absurd (List.mem_singleton.mp h2) (by decide)
  have hdata : ("SELECT " ++ cols ++ " FROM " ++ (⟨q.toList⟩ : String) ++ tok ++
      (⟨q.toList⟩ : String) ++ " " ++ rest).data =
      'S' :: 'E' :: 'L' :: 'E' :: 'C' :: 'T' :: ((' ' :: cols.data ++ [' ']) ++
        ('F' :: 'R' :: 'O' :: 'M' :: ' ' ::
          (q.toList ++ (tok.data ++ (q.toList ++ (' ' :: rest.data)))))) := by
    have h1 : ("SELECT " : String).data = ['S', 'E', 'L', 'E', 'C', 'T', ' '] := rfl
    have h2 : (" FROM " : String).data = [' ', 'F', 'R', 'O', 'M', ' '] := rfl
    have h3 : (" " : String).data = [' '] := rfl
    have h4 : ((⟨q.toList⟩ : String)).data = q.toList := rfl
    simp [data_append, h1, h2, h3, h4, List.append_assoc]
  unfold extract_domain
  rw [hdata]
  show (scanRightmost ((' ' :: cols.data ++ [' ']) ++
      ('F' :: 'R' :: 'O' :: 'M' :: ' ' ::
        (q.toList ++ (tok.data ++ (q.toList ++ (' ' :: rest.data))))))).map List.asString =
    some tok
  rw [scanRightmost_append_of_some (' ' :: cols.data ++ [' ']) hnl'
    (scanRightmost_FROM hq hne hw htf hrf)]
  rfl

/-- C3 counterexample: the expression
`SELECT a FROM D WHERE b = "from qq " ` is of the restricted shape with
domain token `D`, but the greedy pattern match picks the last `from`-like
clause, extracting `qq` instead, and `select_items` therefore opens (and
creates) the store of domain `qq`, not `D`. -/
theorem c3_counterexample :
    extract_domain "SELECT a FROM D WHERE b = \"from qq \" " = some "qq" ∧
    list_domains (select_items emptyState "SELECT a FROM D WHERE b = \"from qq \" ").1 =
      ["qq"] :=
  ⟨by decide, by decide⟩

/-- C3 (amended): for every select expression of the restricted shape
`SELECT <cols> FROM <tok> <rest>` (token optionally quoted), provided the
token and `<rest>` contain no further occurrence of `from`/`FROM` (so the
greedy rightmost pattern match lands on the real FROM clause) and `<cols>`
spans no newline, `select_items` extracts the domain token, substitutes
every occurrence of the token by the internal table name, and executes the
rewritten query against that domain's store; and for every expression the
pattern cannot match at all, `select_items` fails (the uncaught
attribute-error of calling `.groups()` on `None`). -/
theorem c3_select_translation :
    (∀ (st : State) (cols tok rest : String) (q : Option Char),
      (∀ c, q = some c → isQuoteChar c = true) →
      tok.data ≠ [] →
      (∀ c ∈ tok.data, wordChar c = true) →
      hasFrom tok.data = false →
      hasFrom rest.data = false →
      '\n' ∉ cols.data →
      extract_domain ("SELECT " ++ cols ++ " FROM " ++ (⟨q.toList⟩ : String) ++ tok ++
        (⟨q.toList⟩ : String) ++ " " ++ rest) = some tok ∧
      select_items st ("SELECT " ++ cols ++ " FROM " ++ (⟨q.toList⟩ : String) ++ tok ++
          (⟨q.toList⟩ : String) ++ " " ++ rest) =
        ((connect st tok).1,
          exec_on_store (connect st tok).2
            (pyReplace ("SELECT " ++ cols ++ " FROM " ++ (⟨q.toList⟩ : String) ++ tok ++
              (⟨q.toList⟩ : String) ++ " " ++ rest) tok "datatable"))) ∧
    (∀ (st : State) (expr : String), extract_domain expr = none →
      select_items st expr = (st, Except.error Err.attributeError)) := by
  constructor
  · intro st cols tok rest q hq hne hw htf hrf hnl
    have hx := extract_domain_shape cols tok rest q hq hne hw htf hrf hnl
    exact ⟨hx, by simp only [select_items, hx]⟩
  · intro st expr hx
    simp only [select_items, hx]

/-- C3 witness: a well-formed expression has its domain token extracted, and
an expression with no matching pattern fails with the attribute error. -/
theorem c3_select_translation_spot :
    extract_domain "SELECT a FROM Dom1 WHERE x = y " = some "Dom1" ∧
    select_items emptyState "hello" = (emptyState, Except.error Err.attributeError) := by
  constructor
  · have h := (c3_select_translation.1 emptyState "a" "Dom1" "WHERE x = y " none
      (fun c hc => by cases hc) (by decide) (by decide) (by decide) (by decide) (by decide)).1
    have he : ("SELECT " ++ "a" ++ " FROM " ++ ((⟨(none : Option Char).toList⟩ : String)) ++
        "Dom1" ++ ((⟨(none : Option Char).toList⟩ : String)) ++ " " ++ "WHERE x = y ") =
        "SELECT a FROM Dom1 WHERE x = y " := by decide
    rw [he] at h
    exact h
  · exact c3_select_translation.2 emptyState "hello" (by decide)

/-- C5: a name consisting of a valid body followed by a single trailing
newline, such as `abc` + newline, passes the `create_domain` name check
(Python dollar-anchor semantics) and creates a domain of that name, instead
of failing with `InvalidParameterValue` as the claim requires for any name
containing a character outside the allowed class. -/
theorem c5_trailing_newline_accepted :
    nameMatches "abc\n" = true ∧
    create_domain emptyState "abc\n" = (⟨[("abc\n", none)]⟩, Except.ok ()) := by
  constructor
  · decide
  · decide

/-- C4 counterexample: in a directory at the cap whose hundred domains include
the valid name `dom0`, `create_domain` on the already-existing `dom0` raises
`NumberDomainsExceeded` — the cap check runs before the existence check, so
re-creating an existing domain is not error-free at the cap. -/
theorem c4_counterexample :
    nameMatches "dom0" = true ∧
    "dom0" ∈ list_domains capState ∧
    storeOf capState "dom0" = some none ∧
    (create_domain capState "dom0").2 =
      Except.error (Err.aws "NumberDomainsExceeded" "Number of domains limit exceeded.") := by
  refine ⟨by decide, by decide, by decide, by decide⟩

/-- C4 (amended): for every valid name whose domain already exists, while the
directory holds fewer than `DOMAIN_CAP` domains, `create_domain` is
idempotent: it raises no error and leaves the directory completely unchanged,
so a repeated create followed by `list_domains` still lists the name exactly
once. -/
theorem c4_create_domain_idempotent (st : State) (name : String)
    (hname : nameMatches name = true)
    (hmem : name ∈ list_domains st)
    (hcap : (list_domains st).length < DOMAIN_CAP) :
    create_domain st name = (st, Except.ok ()) ∧
    ((list_domains st).Nodup → (list_domains (create_domain st name).1).count name = 1) := by
  have hs : ∃ s, storeOf st name = some s := by
    cases h : storeOf st name with
    | none => exact absurd hmem (lookup_eq_none.mp h)
    | some s => exact ⟨s, rfl⟩
  obtain ⟨s, hs⟩ := hs
  have h1 : create_domain st name = (st, Except.ok ()) := by
    unfold create_domain
    rw [if_neg (by rw [hname]; simp : ¬ (nameMatches name = false)),
      if_neg (Nat.not_le.mpr hcap), connect_mem hs]
  refine ⟨h1, fun hnd => ?_⟩
  rw [h1]
  exact List.count_eq_one_of_mem hnd hmem

/-- C4 witness: idempotent re-create of an existing domain below the cap. -/
theorem c4_create_domain_idempotent_spot :
    create_domain ⟨[("abc", none)]⟩ "abc" = (⟨[("abc", none)]⟩, Except.ok ()) ∧
    (list_domains (create_domain ⟨[("abc", none)]⟩ "abc").1).count "abc" = 1 := by
  have h := c4_create_domain_idempotent ⟨[("abc", none)]⟩ "abc" (by decide) (by decide) (by decide)
  exact ⟨h.1, h.2 (by decide)⟩

/-- C6: for every valid fresh name, `create_domain` fails with
`NumberDomainsExceeded` exactly when the directory already holds at least
`DOMAIN_CAP` domains; on that failure nothing is created (the state is
unchanged), and below the cap the create succeeds and adds exactly that
domain. -/
theorem c6_domain_cap (st : State) (name : String)
    (hname : nameMatches name = true) (hfresh : name ∉ list_domains st) :
    ((create_domain st name).2 =
        Except.error (Err.aws "NumberDomainsExceeded" "Number of domains limit exceeded.") ↔
      DOMAIN_CAP ≤ (list_domains st).length) ∧
    (DOMAIN_CAP ≤ (list_domains st).length → (create_domain st name).1 = st) ∧
    ((list_domains st).length < DOMAIN_CAP →
      (create_domain st name).2 = Except.ok () ∧
      list_domains (create_domain st name).1 = list_domains st ++ [name]) := by
  have hsnone : storeOf st name = none := lookup_eq_none.mpr hfresh
  have hname' : ¬ (nameMatches name = false) := by rw [hname]; simp
  by_cases hc : DOMAIN_CAP ≤ (list_domains st).length
  · have he : create_domain st name =
        (st, .error (.aws "NumberDomainsExceeded" "Number of domains limit exceeded.")) := by
      unfold create_domain
      rw [if_neg hname', if_pos hc]
    rw [he]
    exact ⟨by simp [hc], fun _ => rfl, fun hlt => absurd hc (Nat.not_le.mpr hlt)⟩
  · have he : create_domain st name = ((connect st name).1, .ok ()) := by
      unfold create_domain
      rw [if_neg hname', if_neg hc]
    rw [he]
    exact ⟨by simp [hc], fun h100 => absurd h100 hc,
      fun _ => ⟨rfl, list_domains_connect_fresh hsnone⟩⟩

/-- C1: contrary to the claim, `put_attributes` never adds a column for an
attribute name that is not yet part of the domain's schema: evaluating the
spec's own scenario (put `color`, then put `size` for the same item), the
second call leaves the table's columns at `sdbkey, color` — no `size` column
exists — because `CREATE TABLE IF NOT EXISTS` is a no-op on an existing
table, and the positional insert silently stores `large` in the `color`
column; a read of the item still returns `color = red` from the first row. -/
theorem c1_no_column_added :
    (put_attributes (put_attributes emptyState "D" "item1" [("color", "red")]).1
        "D" "item1" [("size", "large")]).2 = Except.ok () ∧
    storeOf (put_attributes (put_attributes emptyState "D" "item1" [("color", "red")]).1
        "D" "item1" [("size", "large")]).1 "D" =
      some (some ⟨["sdbkey", "color"], [["item1", "red"], ["item1", "large"]]⟩) ∧
    (get_attributes (put_attributes (put_attributes emptyState "D" "item1" [("color", "red")]).1
        "D" "item1" [("size", "large")]).1 "D" "item1").2 = Except.ok [("color", "red")] :=
  ⟨by decide, by decide, by decide⟩

/-- C7 counterexample: a put whose attribute name differs from the existing
schema does not produce a row holding the given value for the given name:
after put of `b` then put of `a` for the same item, the store has no `a`
column at all and the second row holds the value `2` in column `b`. -/
theorem c7_counterexample :
    (put_attributes (put_attributes emptyState "D" "i" [("b", "1")]).1
        "D" "i" [("a", "2")]).2 = Except.ok () ∧
    storeOf (put_attributes (put_attributes emptyState "D" "i" [("b", "1")]).1
        "D" "i" [("a", "2")]).1 "D" =
      some (some ⟨["sdbkey", "b"], [["i", "1"], ["i", "2"]]⟩) :=
  ⟨by decide, by decide⟩

/-- C7 (amended): when the domain's table does not exist yet, or its columns
are exactly `sdbkey` followed by the put's sorted attribute names, a
non-empty `put_attributes` appends exactly one new row keyed by the item,
holding the given value for each given name, and never merges into existing
rows (they are preserved unchanged before the appended row); and a put with
an empty attributes mapping is a complete no-op. -/
theorem c7_put_inserts_row :
    (∀ (st : State) (D item : String) (attrs : List (String × String)),
      attrs ≠ [] →
      (storeOf st D = none ∨ storeOf st D = some none) →
      "sdbkey" ∉ sortedKeys attrs →
      (put_attributes st D item attrs).2 = Except.ok () ∧
      storeOf (put_attributes st D item attrs).1 D =
        some (some ⟨"sdbkey" :: sortedKeys attrs,
          [item :: (sortedKeys attrs).map (attrValue attrs)]⟩) ∧
      (∀ n v, (n, v) ∈ attrs → (attrs.map Prod.fst).Nodup →
        (("sdbkey" :: sortedKeys attrs).zip
          (item :: (sortedKeys attrs).map (attrValue attrs))).lookup n = some v)) ∧
    (∀ (st : State) (D item : String) (attrs : List (String × String)) (t : Table),
      attrs ≠ [] →
      storeOf st D = some (some t) →
      t.columns = "sdbkey" :: sortedKeys attrs →
      (put_attributes st D item attrs).2 = Except.ok () ∧
      storeOf (put_attributes st D item attrs).1 D =
        some (some ⟨t.columns, t.rows ++ [item :: (sortedKeys attrs).map (attrValue attrs)]⟩)) ∧
    (∀ (st : State) (D item : String), put_attributes st D item [] = (st, Except.ok ())) := by
  have hlook : ∀ (item : String) (attrs : List (String × String)),
      "sdbkey" ∉ sortedKeys attrs →
      ∀ n v, (n, v) ∈ attrs → (attrs.map Prod.fst).Nodup →
      (("sdbkey" :: sortedKeys attrs).zip
        (item :: (sortedKeys attrs).map (attrValue attrs))).lookup n = some v := by
    intro item attrs hsk n v hmemv hnd
    have hnmem : n ∈ sortedKeys attrs :=
      mem_sortedKeys.mpr (List.mem_map_of_mem Prod.fst hmemv)
    have hns : ¬ "sdbkey" = n := fun hh => hsk (hh ▸ hnmem)
    rw [List.zip_cons_cons, lookup_cons_ne item _ hns,
      lookup_zip_map (nodup_sortedKeys attrs) hnmem]
    rw [show attrValue attrs n = v from by
      unfold attrValue
      rw [lookup_of_mem_nodup hnd hmemv]
      rfl]
  refine ⟨?_, ?_, put_attributes_nil⟩
  · intro st D item attrs hne hstore hsk
    rcases hstore with h | h
    · have hc := connect_fresh h
      have hc2 : (connect st D).2 = none := by rw [hc]
      have he := put_attributes_create st D item attrs hne hc2 hsk
      refine ⟨by rw [he], ?_, hlook item attrs hsk⟩
      rw [he]
      exact storeOf_setStore_self (storeOf_connect_fresh h)
    · have hc := connect_mem h
      have hc2 : (connect st D).2 = none := by rw [hc]
      have he := put_attributes_create st D item attrs hne hc2 hsk
      refine ⟨by rw [he], ?_, hlook item attrs hsk⟩
      rw [he, hc]
      exact storeOf_setStore_self h
  · intro st D item attrs t hne hstore hcols
    have hc := connect_mem hstore
    have hc2 : (connect st D).2 = some t := by rw [hc]
    have he := put_attributes_append st D item attrs t hne hc2 hcols
    refine ⟨by rw [he], ?_⟩
    rw [he, hc]
    exact storeOf_setStore_self hstore

/-- C7 witness: the first put on a fresh domain appends one row holding the
given value under the given name. -/
theorem c7_put_inserts_row_spot :
    (put_attributes emptyState "D" "item1" [("color", "red")]).2 = Except.ok () ∧
    storeOf (put_attributes emptyState "D" "item1" [("color", "red")]).1 "D" =
      some (some ⟨["sdbkey", "color"], [["item1", "red"]]⟩) ∧
    (["sdbkey", "color"].zip ["item1", "red"]).lookup "color" = some "red" := by
  have h := c7_put_inserts_row.1 emptyState "D" "item1" [("color", "red")]
    (by decide) (Or.inl (by decide)) (by decide)
  have e1 : sortedKeys [("color", "red")] = ["color"] := by decide
  have e2 : List.map (attrValue [("color", "red")]) ["color"] = ["red"] := by decide
  refine ⟨h.1, ?_, ?_⟩
  · have h2 := h.2.1
    rw [e1, e2] at h2
    exact h2
  · have h3 := h.2.2 "color" "red" (by decide) (by decide)
    rw [e1, e2] at h3
    exact h3

/-- C2 counterexample: `get_attributes` on a domain that was never written
(no backing store, hence no `datatable`) raises the uncaught no-such-table
fault instead of returning an empty mapping. -/
theorem c2_counterexample :
    (get_attributes emptyState "D" "item1").2 = Except.error Err.noSuchTable ∧
    (get_attributes emptyState "D" "item1").2 ≠ Except.ok [] :=
  ⟨by decide, by decide⟩

/-- C2 (amended): `get_attributes` returns the attribute mapping
reconstructed from the first row whose key column matches the item, with the
internal `sdbkey` column excluded, and returns an empty mapping without
fault when the table exists but no row matches; however, when the domain's
backing store holds no `datatable` at all (a domain never written to, or
never created), the call fails with the no-such-table fault rather than
returning an empty mapping. -/
theorem c2_get_attributes_spec :
    (∀ (st : State) (D item : String),
      (storeOf st D = none ∨ storeOf st D = some none) →
      (get_attributes st D item).2 = Except.error Err.noSuchTable) ∧
    (∀ (st : State) (D item : String) (t : Table) (i : Nat),
      storeOf st D = some (some t) →
      t.columns.findIdx? (· == "sdbkey") = some i →
      (t.rows.find? (fun r => r.get? i == some item) = none →
        (get_attributes st D item).2 = Except.ok []) ∧
      (∀ row, t.rows.find? (fun r => r.get? i == some item) = some row →
        (get_attributes st D item).2 = Except.ok (rowAttrs t.columns row) ∧
        "sdbkey" ∉ (rowAttrs t.columns row).map Prod.fst)) := by
  constructor
  · intro st D item hstore
    rcases hstore with h | h
    · rw [get_attributes_no_table (by rw [connect_fresh h])]
    · rw [get_attributes_no_table (by rw [connect_mem h])]
  · intro st D item t i hstore hidx
    have he := get_attributes_table st D item t i
      (by rw [connect_mem hstore]) hidx
    constructor
    · intro hfind
      rw [he, hfind]
    · intro row hfind
      rw [he, hfind]
      exact ⟨rfl, sdbkey_not_mem_rowAttrs t.columns row⟩

/-- C2 witness: a matching row yields the mapping without `sdbkey`, a missing
item yields the empty mapping, and an untouched domain yields the
no-such-table fault. -/
theorem c2_get_attributes_spec_spot :
    (get_attributes exState "D" "item1").2 =
      Except.ok (rowAttrs ["sdbkey", "color"] ["item1", "red"]) ∧
    (get_attributes exState "D" "missing").2 = Except.ok [] ∧
    (get_attributes exState "E" "item1").2 = Except.error Err.noSuchTable := by
  refine ⟨?_, ?_, ?_⟩
  · exact ((c2_get_attributes_spec.2 exState "D" "item1"
      ⟨["sdbkey", "color"], [["item1", "red"]]⟩ 0 rfl (by decide)).2
      ["item1", "red"] (by decide)).1
  · exact (c2_get_attributes_spec.2 exState "D" "missing"
      ⟨["sdbkey", "color"], [["item1", "red"]]⟩ 0 rfl (by decide)).1 (by decide)
  · exact c2_get_attributes_spec.1 exState "E" "item1" (Or.inl (by decide))

/-- C8 counterexample: put followed by get is not a round-trip when an older
row for the same item exists: after putting `a = 1` and then `a = 2` for the
same item, `get_attributes` returns the first matching row, so the freshly
put value `2` is not returned. -/
theorem c8_counterexample :
    (get_attributes (put_attributes (put_attributes emptyState "D" "i" [("a", "1")]).1
        "D" "i" [("a", "2")]).1 "D" "i").2 = Except.ok [("a", "1")] ∧
    (get_attributes (put_attributes (put_attributes emptyState "D" "i" [("a", "1")]).1
        "D" "i" [("a", "2")]).1 "D" "i").2 ≠ Except.ok [("a", "2")] :=
  ⟨by decide, by decide⟩

/-- C8 (amended): put of a single name-value pair followed by get of the same
item returns the value unchanged as a string, provided no earlier row for
that item exists and the domain's schema (if the table already exists) is
exactly the key column plus that attribute name — in particular on a fresh
domain. -/
theorem c8_roundtrip (st : State) (D item n v : String)
    (hn : ¬ n = "sdbkey")
    (hstore : storeOf st D = none ∨ storeOf st D = some none ∨
      ∃ t, storeOf st D = some (some t) ∧ t.columns = ["sdbkey", n] ∧
        ∀ r ∈ t.rows, (r.get? 0 == some item) = false) :
    (get_attributes (put_attributes st D item [(n, v)]).1 D item).2 = Except.ok [(n, v)] := by
  have hne : ([(n, v)] : List (String × String)) ≠ [] := by simp
  have hsk1 : sortedKeys [(n, v)] = [n] := by
    unfold sortedKeys
    simp [List.insertionSort, List.orderedInsert]
  have hskmem : "sdbkey" ∉ sortedKeys [(n, v)] := by
    rw [hsk1]
    intro hmem
    exact hn (List.mem_singleton.mp hmem).symm
  have hrowv : List.map (attrValue [(n, v)]) (sortedKeys [(n, v)]) = [v] := by
    rw [hsk1]
    simp [attrValue, lookup_cons_eq]
  have hidx : (["sdbkey", n] : List String).findIdx? (· == "sdbkey") = some 0 := by
    simp [List.findIdx?]
  have hra : rowAttrs ["sdbkey", n] [item, v] = [(n, v)] := by
    have hbne : (n != "sdbkey") = true := by simp [hn]
    simp [rowAttrs, List.filter, hbne]
  have main : ∀ (st1 : State) (rows : List (List String)),
      storeOf st1 D = some (some ⟨["sdbkey", n], rows ++ [[item, v]]⟩) →
      (∀ r ∈ rows, (r.get? 0 == some item) = false) →
      (get_attributes st1 D item).2 = Except.ok [(n, v)] := by
    intro st1 rows hs1 hnomatch
    have hfind : (rows ++ [[item, v]]).find? (fun r => r.get? 0 == some item) =
        some [item, v] := by
      rw [find?_append_left_none (List.find?_eq_none.mpr ?_)]
      · exact List.find?_cons_of_pos _ (by simp)
      · intro x hx
        rw [hnomatch x hx]
        simp
    have he := get_attributes_table st1 D item ⟨["sdbkey", n], rows ++ [[item, v]]⟩ 0
      (by rw [connect_mem hs1]) hidx
    rw [he, hfind]
    show Except.ok (rowAttrs ["sdbkey", n] [item, v]) = Except.ok [(n, v)]
    rw [hra]
  rcases hstore with h | h | ⟨t, h, hcols, hrows⟩
  · have he := put_attributes_create st D item [(n, v)] hne (by rw [connect_fresh h]) hskmem
    refine main _ [] ?_ (by intro r hr; cases hr)
    have hs1 : storeOf (put_attributes st D item [(n, v)]).1 D =
        some (some ⟨"sdbkey" :: sortedKeys [(n, v)],
          [item :: List.map (attrValue [(n, v)]) (sortedKeys [(n, v)])]⟩) := by
      rw [he]
      exact storeOf_setStore_self (storeOf_connect_fresh h)
    rw [hrowv, hsk1] at hs1
    simpa using hs1
  · have he := put_attributes_create st D item [(n, v)] hne (by rw [connect_mem h]) hskmem
    refine main _ [] ?_ (by intro r hr; cases hr)
    have hs1 : storeOf (put_attributes st D item [(n, v)]).1 D =
        some (some ⟨"sdbkey" :: sortedKeys [(n, v)],
          [item :: List.map (attrValue [(n, v)]) (sortedKeys [(n, v)])]⟩) := by
      rw [he, connect_mem h]
      exact storeOf_setStore_self h
    rw [hrowv, hsk1] at hs1
    simpa using hs1
  · have hcols' : t.columns = "sdbkey" :: sortedKeys [(n, v)] := by
      rw [hsk1, hcols]
    have he := put_attributes_append st D item [(n, v)] t hne (by rw [connect_mem h]) hcols'
    refine main _ t.rows ?_ hrows
    have hs1 : storeOf (put_attributes st D item [(n, v)]).1 D =
        some (some ⟨t.columns,
          t.rows ++ [item :: List.map (attrValue [(n, v)]) (sortedKeys [(n, v)])]⟩) := by
      rw [he, connect_mem h]
      exact storeOf_setStore_self h
    rw [hcols, hrowv] at hs1
    exact hs1

/-- C8 witness: the round-trip on a fresh domain returns the value unchanged. -/
theorem c8_roundtrip_spot :
    (get_attributes (put_attributes emptyState "D" "item1" [("color", "red")]).1
      "D" "item1").2 = Except.ok [("color", "red")] :=
  c8_roundtrip emptyState "D" "item1" "color" "red" (by decide) (Or.inl (by decide))

/-- C9 counterexample: `put_attributes` with an empty attributes mapping
against a missing domain returns before connecting, so no backing-store file
is created and the name does not appear in `list_domains`, contrary to the
claim that every invocation of the four operations creates the store. -/
theorem c9_counterexample :
    (put_attributes emptyState "D" "item1" []).1 = emptyState ∧
    "D" ∉ list_domains (put_attributes emptyState "D" "item1" []).1 :=
  ⟨by decide, by decide⟩

/-- C9 (amended): for every domain name with no backing store — with no name
validation and no cap check, since the name and the directory are arbitrary —
`get_attributes`, `delete_attributes`, `select_items` (when the name is the
extracted domain token) and `put_attributes` with a non-empty mapping all
create the backing-store file as a side effect, so the name subsequently
appears in `list_domains`; for the three read/delete/select operations the
created store is empty (holds no table). -/
theorem c9_store_autocreate (st : State) (name item expr : String)
    (attrs : List (String × String)) (hfresh : name ∉ list_domains st) :
    (attrs ≠ [] → name ∈ list_domains (put_attributes st name item attrs).1) ∧
    (name ∈ list_domains (get_attributes st name item).1 ∧
      storeOf (get_attributes st name item).1 name = some none) ∧
    (name ∈ list_domains (delete_attributes st name item).1 ∧
      storeOf (delete_attributes st name item).1 name = some none) ∧
    (extract_domain expr = some name →
      name ∈ list_domains (select_items st expr).1 ∧
      storeOf (select_items st expr).1 name = some none) := by
  have hnone : storeOf st name = none := lookup_eq_none.mpr hfresh
  have hc2 : (connect st name).2 = none := by rw [connect_fresh hnone]
  have hmem1 : name ∈ list_domains (connect st name).1 := by
    rw [list_domains_connect_fresh hnone]
    simp
  have hso : storeOf (connect st name).1 name = some none := storeOf_connect_fresh hnone
  refine ⟨?_, ?_, ?_, ?_⟩
  · intro hne
    by_cases hsk : "sdbkey" ∈ sortedKeys attrs
    · rw [put_attributes_dupcol st name item attrs hne hc2 hsk]
      exact hmem1
    · rw [put_attributes_create st name item attrs hne hc2 hsk, list_domains_setStore]
      exact hmem1
  · rw [get_attributes_no_table hc2]
    exact ⟨hmem1, hso⟩
  · rw [delete_attributes_no_table hc2]
    exact ⟨hmem1, hso⟩
  · intro hx
    have he : select_items st expr =
        ((connect st name).1,
          exec_on_store (connect st name).2 (pyReplace expr name "datatable")) := by
      simp only [select_items, hx]
    rw [he]
    exact ⟨hmem1, hso⟩

/-- C9 witness: even an invalid two-character name gets a store created by a
read, a delete, a non-empty put, and a select extracting it — no name
validation or cap check applies on this path. -/
theorem c9_store_autocreate_spot :
    nameMatches "qq" = false ∧
    "qq" ∈ list_domains (get_attributes emptyState "qq" "x").1 ∧
    "qq" ∈ list_domains (delete_attributes emptyState "qq" "x").1 ∧
    "qq" ∈ list_domains (put_attributes emptyState "qq" "x" [("a", "b")]).1 ∧
    "qq" ∈ list_domains (select_items emptyState "SELECT * FROM qq WHERE a ").1 := by
  have h := c9_store_autocreate emptyState "qq" "x" "SELECT * FROM qq WHERE a "
    [("a", "b")] (by decide)
  exact ⟨by decide, h.2.1.1, h.2.2.1.1, h.1 (by decide), (h.2.2.2 (by decide)).1⟩

/-- C6 witness: at a directory holding exactly `DOMAIN_CAP` domains, the
create of a fresh valid name is the failing 101st create. -/
theorem c6_domain_cap_spot :
    ((create_domain capState "newdom").2 =
        Except.error (Err.aws "NumberDomainsExceeded" "Number of domains limit exceeded.") ↔
      DOMAIN_CAP ≤ (list_domains capState).length) ∧
    (DOMAIN_CAP ≤ (list_domains capState).length → (create_domain capState "newdom").1 = capState) ∧
    ((list_domains capState).length < DOMAIN_CAP →
      (create_domain capState "newdom").2 = Except.ok () ∧
      list_domains (create_domain capState "newdom").1 = list_domains capState ++ ["newdom"]) :=
  c6_domain_cap capState "newdom" (by decide) (by decide)

/-- C10: every attribute mapping returned by `select_items` includes the
internal key column as an entry mapping `sdbkey` to the row's item key (the
value of the row's `sdbkey` column), whereas `get_attributes` never includes
`sdbkey` among the keys of its returned mapping. -/
theorem c10_sdbkey_exposure :
    (∀ (st : State) (expr dom : String) (t : Table) (cs : List String)
        (ms : List (List (String × String))),
      extract_domain expr = some dom →
      storeOf st dom = some (some t) →
      t.columns = "sdbkey" :: cs →
      (∀ r ∈ t.rows, r ≠ []) →
      (select_items st expr).2 = Except.ok ms →
      ∀ m ∈ ms, ∃ r ∈ t.rows, m.lookup "sdbkey" = some r.headI) ∧
    (∀ (st : State) (D item : String) (ms : List (String × String)),
      (get_attributes st D item).2 = Except.ok ms →
      "sdbkey" ∉ ms.map Prod.fst) := by
  constructor
  · intro st expr dom t cs ms hx hstore hcols hrows hok
    have hc := connect_mem hstore
    have he : select_items st expr =
        ((connect st dom).1,
          exec_on_store (connect st dom).2 (pyReplace expr dom "datatable")) := by
      simp only [select_items, hx]
    rw [he, hc] at hok
    have hok2 : exec_on_store (some t) (pyReplace expr dom "datatable") = Except.ok ms := hok
    have hms := exec_on_store_ok hok2
    subst hms
    intro m hm
    obtain ⟨r, hr, hmr⟩ := List.mem_map.mp hm
    refine ⟨r, hr, ?_⟩
    obtain ⟨x, xs, hx2⟩ := List.exists_cons_of_ne_nil (hrows r hr)
    subst hx2
    rw [← hmr, hcols, List.zip_cons_cons, lookup_cons_eq]
    rfl
  · intro st D item ms hok
    cases hs : (connect st D).2 with
    | none =>
      rw [get_attributes_no_table hs] at hok
      cases hok
    | some t =>
      cases hidx : t.columns.findIdx? (· == "sdbkey") with
      | none =>
        rw [get_attributes_no_column hs hidx] at hok
        cases hok
      | some i =>
        rw [get_attributes_table st D item t i hs hidx] at hok
        cases hf : t.rows.find? (fun r => r.get? i == some item) with
        | none =>
          rw [hf] at hok
          have hok2 : (Except.ok [] : Except Err (List (String × String))) = Except.ok ms := hok
          cases hok2
          simp
        | some row =>
          rw [hf] at hok
          have hok2 : Except.ok (rowAttrs t.columns row) = Except.ok ms := hok
          cases hok2
          exact sdbkey_not_mem_rowAttrs t.columns row

/-- C10 witness: a select over a one-row domain returns the mapping with the
`sdbkey` entry, and a get over the same domain returns a mapping without it. -/
theorem c10_sdbkey_exposure_spot :
    (∃ r ∈ ([["item1", "red"]] : List (List String)),
      List.lookup "sdbkey" [("sdbkey", "item1"), ("color", "red")] = some r.headI) ∧
    "sdbkey" ∉ ([("color", "red")] : List (String × String)).map Prod.fst := by
  constructor
  · exact c10_sdbkey_exposure.1 exState "SELECT * FROM D " "D"
      ⟨["sdbkey", "color"], [["item1", "red"]]⟩ ["color"]
      [[("sdbkey", "item1"), ("color", "red")]]
      (by decide) (by decide) (by decide) (by decide) (by decide)
      [("sdbkey", "item1"), ("color", "red")] (by decide)
  · exact c10_sdbkey_exposure.2 exState "D" "item1" [("color", "red")] (by decide)

end FakeSimpleDb
